import Mathlib

/-!
Verification development for the i18n resolution layer of the
barbacane-dev/website repository.

The embedded code is `src/i18n/index.ts` (locale registry, nested
translation lookup with default-locale fallback, URL locale extraction,
locale validation), the routing configuration in `astro.config.mjs`
(locale prefixing, redirect to default locale, legacy redirects) and the
sitemap alternate-entry generation configured there.

Machine strings are Lean `String`; the JavaScript single-character
`String.split` is embedded as an executable structural function so that
every definition evaluates inside the kernel.
-/

namespace Website

/-- JsValue-like model of a translation dictionary node: a JSON value in
the translation files is either a leaf string or an object mapping keys
to child nodes. This is the `TranslationNode` shape the code walks. -/
inductive JsonNode where
  | leaf : String → JsonNode
  | node : List (String × JsonNode) → JsonNode

/-- Helper for the JavaScript split: accumulates the current chunk and
cuts at each separator character. -/
def splitCharAux (c : Char) : List Char → List Char → List (List Char)
  | [], acc => [acc.reverse]
  | x :: xs, acc =>
    if x = c then acc.reverse :: splitCharAux c xs [] else splitCharAux c xs (x :: acc)

/-- Embedding of the JavaScript `s.split(sep)` for a one-character
separator: the empty string splits to one empty chunk, adjacent
separators yield empty chunks, matching `"a.b".split(".")` semantics. -/
def splitChar (c : Char) (s : String) : List String :=
  (splitCharAux c s.data []).map fun l => String.mk l

/-- The registered locale codes, from `LOCALES` in src/i18n/index.ts. -/
def LOCALES : List String := ["en", "fr", "de", "es"]

/-- The default locale, from `DEFAULT_LOCALE` in src/i18n/index.ts. -/
def DEFAULT_LOCALE : String := "en"

/-- Display names, from `LOCALE_NAMES` in src/i18n/index.ts. -/
def LOCALE_NAMES : List (String × String) :=
  [("en", "English"), ("fr", "Français"), ("de", "Deutsch"), ("es", "Español")]

/-- First binding of a key in an object node, embedding the JavaScript
`k in result` test followed by `result[k]`. -/
def lookupChild : List (String × JsonNode) → String → Option JsonNode
  | [], _ => none
  | (k, v) :: rest, key => if k = key then some v else lookupChild rest key

/-- Embedding of `getNestedValue` from src/i18n/index.ts: walk the key
segments; at each step descend when the current value is an object
containing the segment, otherwise return undefined (here `none`). A
string leaf is not an object, so walking into it fails exactly as
`typeof result === "object"` fails in the source. -/
def getNestedValue : JsonNode → List String → Option JsonNode
  | r, [] => some r
  | JsonNode.leaf _, _ :: _ => none
  | JsonNode.node cs, k :: rest =>
    match lookupChild cs k with
    | some v => getNestedValue v rest
    | none => none

/-- Embedding of `key.split(".")` in the translation function. -/
def splitKey (key : String) : List String := splitChar '.' key

/-- Embedding of the body of the returned function `t` in
`useTranslations`: look the split key up in the locale dictionary, fall
back to the default dictionary only when the first lookup returned
undefined, and return the result when it is a string, otherwise the key
itself. -/
def translate (dict dflt : JsonNode) (key : String) : String :=
  let keys := splitKey key
  let result : Option JsonNode :=
    match getNestedValue dict keys with
    | some v => some v
    | none => getNestedValue dflt keys
  match result with
  | some (JsonNode.leaf s) => s
  | _ => key

/-- Embedding of `useTranslations` from src/i18n/index.ts, parameterised
by the translation bundle. In the source `translations` is a total
record over the locale type, so the `|| translations[DEFAULT_LOCALE]`
guard never fires; the bundle is therefore a total map here. -/
def useTranslations (translations : String → JsonNode) (locale : String)
    (key : String) : String :=
  translate (translations locale) (translations DEFAULT_LOCALE) key

/-- Embedding of `getLocaleFromUrl` from src/i18n/index.ts: split the
pathname on "/", take the component at index 1 (the JavaScript
destructuring `[, locale]`; a missing component behaves like the empty
string, which is never a registered locale), and return it when it is
registered, else the default locale. -/
def getLocaleFromUrl (pathname : String) : String :=
  let locale := (splitChar '/' pathname).getD 1 ""
  if LOCALES.contains locale then locale else DEFAULT_LOCALE

/-- Embedding of `isValidLocale` from src/i18n/index.ts. -/
def isValidLocale (locale : String) : Bool := LOCALES.contains locale

/-- Routing configuration record, the `RoutePolicyConfig` consumed by the
routing layer: shaped after the `i18n` and `redirects` blocks of
astro.config.mjs. -/
structure RoutePolicyConfig where
  locales : List String
  defaultLocale : String
  prefixDefaultLocale : Bool
  redirectToDefaultLocale : Bool
  legacyRedirects : List (String × String)

/-- The concrete configuration from astro.config.mjs: four locales,
default `en`, prefixing and redirecting enabled, and three explicit
legacy redirects for the de-localised trademarks page. -/
def siteConfig : RoutePolicyConfig :=
  { locales := ["en", "fr", "de", "es"]
    defaultLocale := "en"
    prefixDefaultLocale := true
    redirectToDefaultLocale := true
    legacyRedirects :=
      [("/fr/trademarks", "/trademarks"),
       ("/de/trademarks", "/trademarks"),
       ("/es/trademarks", "/trademarks")] }

/-- First matching entry of the redirect table for a source path. -/
def lookupPath : List (String × String) → String → Option String
  | [], _ => none
  | (src, tgt) :: rest, p => if src = p then some tgt else lookupPath rest p

/-- Modelled from the spec: the redirect resolution performed by the
framework routing layer, whose code is not part of this repository.
Explicit `legacyRedirects` entries apply first, exactly as listed; when
none matches and both `prefixDefaultLocale` and `redirectToDefaultLocale`
hold, a request whose first path component is not a registered locale
(the unprefixed form of a page) redirects to the default-locale-prefixed
form of the same path. Returns the redirect target, or `none` when the
request is served without redirecting. -/
def resolveRedirect (cfg : RoutePolicyConfig) (path : String) : Option String :=
  match lookupPath cfg.legacyRedirects path with
  | some target => some target
  | none =>
    if cfg.prefixDefaultLocale && cfg.redirectToDefaultLocale
        && !(cfg.locales.contains ((splitChar '/' path).getD 1 "")) then
      some ("/" ++ cfg.defaultLocale ++ path)
    else
      none

/-- Locale-prefixed concrete URL of a logical page. -/
def localizedUrl (locale page : String) : String := "/" ++ locale ++ "/" ++ page

/-- The locale set of the sitemap integration block in astro.config.mjs
(the keys of the `i18n.locales` mapping passed to the sitemap plugin). -/
def sitemapLocales : List String := ["en", "fr", "de", "es"]

/-- The default locale declared in the sitemap integration block. -/
def sitemapDefaultLocale : String := "en"

/-- Modelled from the spec: the alternate-link entries the sitemap
plugin (external to this repository) emits for one logical page: one
entry per registered locale using the prefixed URL form, plus one
`x-default` entry pointing at the default locale URL. Each entry is a
pair of the advertised language code and the URL. -/
def sitemapEntries (locales : List String) (dflt : String)
    (page : String) : List (String × String) :=
  (locales.map fun l => (l, localizedUrl l page)) ++ [("x-default", localizedUrl dflt page)]

/-- Resolution of a key path in a dictionary to a leaf string. -/
def resolvesToLeaf (dict : JsonNode) (key s : String) : Prop :=
  getNestedValue dict (splitKey key) = some (JsonNode.leaf s)

/-- Modelled from the spec: the locale extraction rule as the spec words
it, for refinement comparison with `getLocaleFromUrl` — take the first
non-empty path component of the URL path. -/
def firstNonEmptySegment (path : String) : Option String :=
  (splitChar '/' path).find? fun s => !(s == "")

/-- Modelled from the spec: the full spec-side locale extractor — if the
first non-empty segment exactly matches a registered locale code return
it, otherwise return the default locale. -/
def specLocaleFromUrl (path : String) : String :=
  match firstNonEmptySegment path with
  | some seg => if LOCALES.contains seg then seg else DEFAULT_LOCALE
  | none => DEFAULT_LOCALE

/-- Case analysis of the translation function: the result is the locale
leaf when the walk finds one, the key when the walk finds an internal
node, and otherwise the same analysis of the default dictionary with the
key as last resort. -/
theorem translate_eq_match (dict dflt : JsonNode) (key : String) :
    translate dict dflt key =
      match getNestedValue dict (splitKey key) with
      | some (JsonNode.leaf s) => s
      | some (JsonNode.node _) => key
      | none =>
        match getNestedValue dflt (splitKey key) with
        | some (JsonNode.leaf s) => s
        | some (JsonNode.node _) => key
        | none => key := by
  cases h1 : getNestedValue dict (splitKey key) with
  | none =>
    cases h2 : getNestedValue dflt (splitKey key) with
    | none => simp [translate, h1, h2]
    | some v => cases v <;> simp [translate, h1, h2]
  | some v => cases v <;> simp [translate, h1]

/-- Lookup hitting a leaf in the locale dictionary returns that leaf. -/
theorem translate_of_leaf {dict dflt : JsonNode} {key s : String}
    (h : getNestedValue dict (splitKey key) = some (JsonNode.leaf s)) :
    translate dict dflt key = s := by
  rw [translate_eq_match, h]

/-- Lookup hitting an internal node in the locale dictionary returns the
key, with no fallback to the default dictionary. -/
theorem translate_of_node {dict dflt : JsonNode} {key : String}
    {cs : List (String × JsonNode)}
    (h : getNestedValue dict (splitKey key) = some (JsonNode.node cs)) :
    translate dict dflt key = key := by
  rw [translate_eq_match, h]

/-- Failed locale lookup followed by a default-dictionary leaf returns
the default leaf. -/
theorem translate_of_none_leaf {dict dflt : JsonNode} {key s : String}
    (h1 : getNestedValue dict (splitKey key) = none)
    (h2 : getNestedValue dflt (splitKey key) = some (JsonNode.leaf s)) :
    translate dict dflt key = s := by
  rw [translate_eq_match, h1, h2]

/-- Failed locale lookup followed by a default-dictionary internal node
returns the key. -/
theorem translate_of_none_node {dict dflt : JsonNode} {key : String}
    {cs : List (String × JsonNode)}
    (h1 : getNestedValue dict (splitKey key) = none)
    (h2 : getNestedValue dflt (splitKey key) = some (JsonNode.node cs)) :
    translate dict dflt key = key := by
  rw [translate_eq_match, h1, h2]

/-- Lookup failing in both dictionaries returns the key verbatim. -/
theorem translate_of_none_none {dict dflt : JsonNode} {key : String}
    (h1 : getNestedValue dict (splitKey key) = none)
    (h2 : getNestedValue dflt (splitKey key) = none) :
    translate dict dflt key = key := by
  rw [translate_eq_match, h1, h2]

/-- C1 counterexample: in the locale dictionary the key "a" resolves to
an existing internal node while the default dictionary holds the leaf
"s" at the same key, yet the translator returns the key "a" and not the
default leaf "s" — the code only falls back when the first lookup
returned undefined, not when it found a non-string value. -/
theorem translate_internal_node_no_fallback_cex :
    getNestedValue (JsonNode.node [("a", JsonNode.node [("b", JsonNode.leaf "x")])])
        (splitKey "a") = some (JsonNode.node [("b", JsonNode.leaf "x")]) ∧
    getNestedValue (JsonNode.node [("a", JsonNode.leaf "s")]) (splitKey "a")
        = some (JsonNode.leaf "s") ∧
    useTranslations
        (fun loc => if loc = "fr"
          then JsonNode.node [("a", JsonNode.node [("b", JsonNode.leaf "x")])]
          else JsonNode.node [("a", JsonNode.leaf "s")])
        "fr" "a" = "a" ∧
    ("a" : String) ≠ "s" :=
  ⟨rfl, rfl, rfl, by decide⟩

/-- C1 (amended): when walking the key segments into the locale
dictionary resolves to a value that exists but is not a leaf string (an
internal node), the translator does not repeat the lookup against the
default dictionary; it returns the original key verbatim. The fallback
lookup runs only when the first walk resolved to nothing. -/
theorem translate_internal_node_returns_key
    (translations : String → JsonNode) (locale key : String)
    (cs : List (String × JsonNode))
    (h : getNestedValue (translations locale) (splitKey key)
      = some (JsonNode.node cs)) :
    useTranslations translations locale key = key := by
  unfold useTranslations
  exact translate_of_node h

/-- C1 witness: a concrete bundle whose locale dictionary maps "a" to an
internal node; the translator echoes the key. -/
theorem translate_internal_node_returns_key_witness :
    useTranslations (fun _ => JsonNode.node [("a", JsonNode.node [])]) "en" "a"
      = "a" :=
  translate_internal_node_returns_key
    (fun _ => JsonNode.node [("a", JsonNode.node [])]) "en" "a" [] rfl

/-- C2: when the key resolves to a leaf in the default dictionary, the
translator output is the default leaf, a leaf of the locale dictionary,
or the key itself; and when the reachable leaves and the key are
non-empty the output is a non-empty string. The function is total by
construction, so it never returns an undefined value and never throws. -/
theorem translate_default_present_total
    (translations : String → JsonNode) (locale key sD : String)
    (hD : resolvesToLeaf (translations DEFAULT_LOCALE) key sD) :
    (useTranslations translations locale key = sD ∨
      (∃ s, resolvesToLeaf (translations locale) key s ∧
        useTranslations translations locale key = s) ∨
      useTranslations translations locale key = key) ∧
    ((∀ s, resolvesToLeaf (translations locale) key s → s ≠ "") →
      sD ≠ "" → key ≠ "" →
      useTranslations translations locale key ≠ "") := by
  unfold resolvesToLeaf at *
  unfold useTranslations
  cases h1 : getNestedValue (translations locale) (splitKey key) with
  | none =>
    rw [translate_of_none_leaf h1 hD]
    exact ⟨Or.inl rfl, fun _ hsD _ => hsD⟩
  | some v =>
    cases v with
    | leaf s =>
      rw [translate_of_leaf h1]
      exact ⟨Or.inr (Or.inl ⟨s, rfl, rfl⟩), fun hs _ _ => hs s rfl⟩
    | node cs =>
      rw [translate_of_node h1]
      exact ⟨Or.inr (Or.inr rfl), fun _ _ hk => hk⟩

/-- C2 witness: a bundle whose default dictionary holds the leaf "hello"
at "greet" while the locale dictionary is empty; the translation of
"greet" for locale "fr" is non-empty. -/
theorem translate_default_present_total_witness :
    useTranslations
      (fun loc => if loc = "en"
        then JsonNode.node [("greet", JsonNode.leaf "hello")]
        else JsonNode.node []) "fr" "greet" ≠ "" :=
  (translate_default_present_total
      (fun loc => if loc = "en"
        then JsonNode.node [("greet", JsonNode.leaf "hello")]
        else JsonNode.node []) "fr" "greet" "hello" rfl).2
    (fun s h => Option.noConfusion h) (by decide) (by decide)

/-- C3: when the key path is absent from the locale dictionary and
resolves to a leaf in the default dictionary, translating for that
locale gives the same result as translating for the default locale. -/
theorem translate_missing_in_locale_falls_back
    (translations : String → JsonNode) (locale key sD : String)
    (hL : getNestedValue (translations locale) (splitKey key) = none)
    (hD : resolvesToLeaf (translations DEFAULT_LOCALE) key sD) :
    useTranslations translations locale key
      = useTranslations translations DEFAULT_LOCALE key := by
  unfold resolvesToLeaf at hD
  unfold useTranslations
  rw [translate_of_none_leaf hL hD, translate_of_leaf hD]

/-- C3 witness: key "a" is absent from the locale dictionary of "de" and
resolves to the leaf "x" in the default dictionary. -/
theorem translate_missing_in_locale_falls_back_witness :
    useTranslations
        (fun loc => if loc = "en"
          then JsonNode.node [("a", JsonNode.leaf "x")] else JsonNode.node [])
        "de" "a"
      = useTranslations
        (fun loc => if loc = "en"
          then JsonNode.node [("a", JsonNode.leaf "x")] else JsonNode.node [])
        "en" "a" :=
  translate_missing_in_locale_falls_back
    (fun loc => if loc = "en"
      then JsonNode.node [("a", JsonNode.leaf "x")] else JsonNode.node [])
    "de" "a" "x" rfl rfl

/-- C4: when the key path is absent from both the locale dictionary and
the default dictionary, the translator returns the original key string
verbatim, and being a total function it raises no error. -/
theorem translate_missing_everywhere_returns_key
    (translations : String → JsonNode) (locale key : String)
    (hL : getNestedValue (translations locale) (splitKey key) = none)
    (hD : getNestedValue (translations DEFAULT_LOCALE) (splitKey key) = none) :
    useTranslations translations locale key = key := by
  unfold useTranslations
  exact translate_of_none_none hL hD

/-- C4 witness: an empty bundle translates the key "missing.key" to
itself. -/
theorem translate_missing_everywhere_returns_key_witness :
    useTranslations (fun _ => JsonNode.node []) "fr" "missing.key"
      = "missing.key" :=
  translate_missing_everywhere_returns_key
    (fun _ => JsonNode.node []) "fr" "missing.key" rfl rfl

/-- C10: when the empty string is not a top-level key bound to a leaf
string in the locale dictionary nor in the default dictionary, the
translator applied to the empty key returns the empty string — the key
echoed verbatim, since splitting the empty key yields one empty
segment. -/
theorem translate_empty_key_returns_empty
    (translations : String → JsonNode) (locale : String)
    (hL : ∀ s, ¬ resolvesToLeaf (translations locale) "" s)
    (hD : ∀ s, ¬ resolvesToLeaf (translations DEFAULT_LOCALE) "" s) :
    useTranslations translations locale "" = "" := by
  unfold resolvesToLeaf at hL hD
  unfold useTranslations
  cases h1 : getNestedValue (translations locale) (splitKey "") with
  | some v =>
    cases v with
    | leaf s => exact absurd h1 (hL s)
    | node cs => exact translate_of_node h1
  | none =>
    cases h2 : getNestedValue (translations DEFAULT_LOCALE) (splitKey "") with
    | some v =>
      cases v with
      | leaf s => exact absurd h2 (hD s)
      | node cs => exact translate_of_none_node h1 h2
    | none => exact translate_of_none_none h1 h2

/-- C10 witness: with empty dictionaries the empty key translates to the
empty string. -/
theorem translate_empty_key_returns_empty_witness :
    useTranslations (fun _ => JsonNode.node []) "fr" "" = "" :=
  translate_empty_key_returns_empty (fun _ => JsonNode.node []) "fr"
    (fun _ h => Option.noConfusion h) (fun _ h => Option.noConfusion h)

/-- C5 counterexample: on the pathname with a doubled slash the code
examines the empty component at index 1 and returns the default locale,
while the first non-empty path segment is the registered code "fr" — so
the extractor does not take the first non-empty path segment. -/
theorem getLocaleFromUrl_first_nonempty_cex :
    getLocaleFromUrl "//fr/pricing" = "en" ∧
    firstNonEmptySegment "//fr/pricing" = some "fr" ∧
    LOCALES.contains "fr" = true ∧
    specLocaleFromUrl "//fr/pricing" = "fr" ∧
    getLocaleFromUrl "//fr/pricing" ≠ specLocaleFromUrl "//fr/pricing" :=
  ⟨rfl, rfl, rfl, rfl, by decide⟩

/-- C5 (amended): the extractor examines the slash-separated component
at index 1 — the segment immediately after the leading slash — rather
than the first non-empty segment; when that component exactly matches a
registered locale it is returned, otherwise the default locale. For a
path with a single leading slash and a non-empty first segment this
agrees with the first-non-empty-segment rule, and the four concrete
examples of the claim all hold. -/
theorem getLocaleFromUrl_segment_rule :
    getLocaleFromUrl "/fr/pricing" = "fr" ∧
    getLocaleFromUrl "/pricing" = DEFAULT_LOCALE ∧
    getLocaleFromUrl "/" = DEFAULT_LOCALE ∧
    getLocaleFromUrl "/xx/pricing" = DEFAULT_LOCALE ∧
    (∀ path : String,
      getLocaleFromUrl path =
        (if LOCALES.contains ((splitChar '/' path).getD 1 "") then
          (splitChar '/' path).getD 1 ""
        else DEFAULT_LOCALE)) ∧
    (∀ path : String,
      (splitChar '/' path).getD 0 "" = "" →
      (splitChar '/' path).getD 1 "" ≠ "" →
      getLocaleFromUrl path = specLocaleFromUrl path) := by
  refine ⟨rfl, rfl, rfl, rfl, fun path => rfl, ?_⟩
  intro path h0 h1
  cases hp : splitChar '/' path with
  | nil => rw [hp] at h1; simp [List.getD] at h1
  | cons a t =>
    cases t with
    | nil => rw [hp] at h1; simp [List.getD] at h1
    | cons b t2 =>
      rw [hp] at h0 h1
      simp only [List.getD, List.getElem?_cons_zero, List.getElem?_cons_succ,
        Option.getD_some] at h0 h1
      subst h0
      have hb : (b == "") = false := beq_eq_false_iff_ne.mpr h1
      unfold getLocaleFromUrl specLocaleFromUrl firstNonEmptySegment
      rw [hp]
      simp [List.getD, List.find?, hb]

/-- C5 witness: on a standard single-slash path the code extractor and
the first-non-empty-segment rule agree. -/
theorem getLocaleFromUrl_segment_rule_witness :
    getLocaleFromUrl "/de/about" = specLocaleFromUrl "/de/about" :=
  getLocaleFromUrl_segment_rule.2.2.2.2.2 "/de/about" (by decide) (by decide)

/-- C8: the locale extracted from any URL path is always a member of the
registered locale set — the extractor is total and returns either a
registered code or the default locale, which is itself registered. -/
theorem getLocaleFromUrl_always_valid (path : String) :
    isValidLocale (getLocaleFromUrl path) = true := by
  simp only [getLocaleFromUrl, isValidLocale]
  split
  next h => exact h
  next h => decide

/-- C9: validity of a locale code is exact case-sensitive string
equality with one of the four registered codes; in particular the
uppercase variant and the padded variant of a registered code are
invalid. -/
theorem isValidLocale_exact_match :
    (∀ code : String, isValidLocale code =
      (code == "en" || code == "fr" || code == "de" || code == "es")) ∧
    isValidLocale "EN" = false ∧
    isValidLocale "en " = false := by
  refine ⟨fun code => ?_, rfl, rfl⟩
  rw [Bool.eq_iff_iff]
  simp [isValidLocale, LOCALES, List.contains, List.elem_eq_mem, or_assoc]

/-- C6: under the site configuration, with default-locale prefixing and
redirecting enabled, the unprefixed path redirects to its
default-locale-prefixed form, while the explicitly listed legacy entry
for the prefixed trademarks path redirects it to the unprefixed form —
and in general an explicit legacy entry decides the redirect before the
general default-locale rule is consulted. -/
theorem legacy_redirect_precedence :
    siteConfig.prefixDefaultLocale = true ∧
    siteConfig.redirectToDefaultLocale = true ∧
    resolveRedirect siteConfig "/trademarks"
      = some ("/" ++ siteConfig.defaultLocale ++ "/trademarks") ∧
    resolveRedirect siteConfig "/fr/trademarks" = some "/trademarks" ∧
    lookupPath siteConfig.legacyRedirects "/fr/trademarks" = some "/trademarks" ∧
    (∀ (cfg : RoutePolicyConfig) (path target : String),
      lookupPath cfg.legacyRedirects path = some target →
      resolveRedirect cfg path = some target) := by
  refine ⟨rfl, rfl, rfl, rfl, rfl, ?_⟩
  intro cfg path target h
  unfold resolveRedirect
  rw [h]

/-- C6 witness: the legacy entry for the German trademarks path decides
its redirect. -/
theorem legacy_redirect_precedence_witness :
    resolveRedirect siteConfig "/de/trademarks" = some "/trademarks" :=
  legacy_redirect_precedence.2.2.2.2.2 siteConfig "/de/trademarks" "/trademarks" rfl

/-- C7: for every logical page the sitemap entry list carries exactly
one localized entry per registered locale, in registry order, plus
exactly one x-default entry pointing at the default locale URL; the
emitted locale codes therefore coincide with the full locale registry,
whose size is four, and the sitemap configuration block names the same
locales and default as the registry. -/
theorem sitemap_locale_set_complete (page : String) :
    (sitemapEntries sitemapLocales sitemapDefaultLocale page).map Prod.fst
      = LOCALES ++ ["x-default"] ∧
    (sitemapEntries sitemapLocales sitemapDefaultLocale page).length
      = LOCALES.length + 1 ∧
    LOCALES.length = 4 ∧
    sitemapLocales = LOCALES ∧
    sitemapDefaultLocale = DEFAULT_LOCALE ∧
    (LOCALES ++ ["x-default"]).Nodup ∧
    ("x-default", localizedUrl DEFAULT_LOCALE page)
      ∈ sitemapEntries sitemapLocales sitemapDefaultLocale page := by
  refine ⟨rfl, rfl, rfl, rfl, rfl, by decide, ?_⟩
  simp [sitemapEntries, sitemapDefaultLocale, DEFAULT_LOCALE]

end Website

